import Mathlib

/-!
# Verification of `daily_commit_automation.py`

A shallow embedding of the content-mutation and commit-orchestration logic of
the daily-log automation script, together with proofs about it.

Randomness is modelled by an explicit feed of natural numbers: each call the
Python code makes to `random.choice` / `random.randint` / `random.sample`
consumes entries of the feed, in the exact order the Python expressions are
evaluated.  `random.choice lst` with draw `r` yields `lst[r % len(lst)]`;
`random.randint a b` with draw `r` yields `a + r % (b - a + 1)`.  The current
clock (`datetime.datetime.now()`) is modelled by a record of the formatted
strings the code extracts from it.
-/

namespace DailyCommit

/-- Consume one draw from the random feed (an exhausted feed yields 0). -/
def next : List Nat → Nat × List Nat
  | [] => (0, [])
  | r :: rs => (r, rs)

/-- `random.choice lst` with explicit draw `r`: the element at index `r % len`. -/
def pyChoice (l : List α) (d : α) (r : Nat) : α :=
  l.getD (r % l.length) d

/-- `random.randint a b` with explicit draw `r`. -/
def pyRandint (a b r : Nat) : Nat :=
  a + r % (b - a + 1)

/-! ## Configuration catalogs (from the script's configuration section) -/

/-- `FILES_TO_UPDATE` from the configuration section. -/
def FILES_TO_UPDATE : List String :=
  ["daily_log.md", "README.md", "progress.json", "notes.txt", "activities.md"]

/-- `COMMIT_MESSAGES` from the configuration section. -/
def COMMIT_MESSAGES : List String :=
  ["Daily update: {date}",
   "Progress log for {date}",
   "Update: {activity} - {date}",
   "Daily commit: {random_emoji} {date}",
   "Log entry: {timestamp}",
   "Daily sync: {file_updated}",
   "Update {file_updated}: {random_text}",
   "Daily progress: {activity}",
   "Commit: {random_emoji} {activity}",
   "Update: {random_text} - {date}"]

/-- `ACTIVITIES` from the configuration section. -/
def ACTIVITIES : List String :=
  ["code review", "bug fixes", "feature development", "documentation",
   "testing", "refactoring", "optimization", "research", "planning",
   "debugging", "cleanup", "maintenance", "learning", "experimentation"]

/-- `RANDOM_TEXTS` from the configuration section. -/
def RANDOM_TEXTS : List String :=
  ["Quick update", "Minor changes", "Small improvement", "Tiny fix",
   "Quick note", "Brief update", "Small addition", "Minor tweak",
   "Quick edit", "Small change", "Brief note", "Minor update"]

/-- `EMOJIS` from the configuration section. -/
def EMOJIS : List String :=
  ["🚀", "✨", "📝", "🔧", "💡", "🎯", "⚡", "🔥", "💪", "🎉", "📚", "🛠️"]

/-- `MAX_FILES_PER_DAY` from the script configuration. -/
def MAX_FILES_PER_DAY : Nat := 3

/-- `MIN_LINES_TO_ADD` from the script configuration. -/
def MIN_LINES_TO_ADD : Nat := 1

/-- `MAX_LINES_TO_ADD` from the script configuration. -/
def MAX_LINES_TO_ADD : Nat := 5

/-- The formatted clock strings the script extracts from
`datetime.datetime.now()` via `strftime`/`isoformat`. -/
structure NowStrs where
  /-- `now.strftime('%Y-%m-%d')` -/
  ymd : String
  /-- `now.strftime('%Y-%m-%d %H:%M:%S')` -/
  ymdhms : String
  /-- `now.strftime('%Y-%m-%d %H:%M')` -/
  ymdhm : String
  /-- `now.strftime('%H:%M')` -/
  hm : String
  /-- `now.strftime('%B %d')` -/
  monthDay : String
  /-- `now.strftime('%A')` -/
  weekday : String
  /-- `now.isoformat()` -/
  iso : String

/-! ## JSON progress document (`generate_json_content`)

The script reads `progress.json`, treats it as a dict with keys
`daily_updates` (a date-keyed mapping), `last_modified` and `total_entries`,
upserts today's entry and recomputes the aggregates.  Python dict assignment
`d[k] = v` overwrites an existing binding in place and appends a fresh one. -/

/-- One entry of the `daily_updates` mapping, as built at lines 246-252. -/
structure Entry where
  timestamp : String
  activity : String
  status : String
  notes : String
  emoji : String
deriving DecidableEq, Repr

/-- The parsed shape of `progress.json` that the script manipulates.
`daily_updates` is `none` when the key is absent from the loaded dict. -/
structure ProgressData where
  daily_updates : Option (List (String × Entry))
  last_modified : Option String
  total_entries : Option Nat
deriving DecidableEq, Repr

/-- The empty document (`existing_data = {}`). -/
def emptyPD : ProgressData :=
  { daily_updates := none, last_modified := none, total_entries := none }

/-- Python dict assignment `d[k] = v` on an association list: overwrite the
first binding of `k` in place, or append at the end when `k` is absent. -/
def upsert (k : String) (v : Entry) : List (String × Entry) → List (String × Entry)
  | [] => [(k, v)]
  | (k', v') :: rest => if k' = k then (k, v) :: rest else (k', v') :: upsert k v rest

/-- `generate_json_content`, after `json.load`: upsert today's entry into
`daily_updates` (creating the mapping when absent), then set `last_modified`
to `now.isoformat()` and `total_entries` to the size of the mapping.
The feed draws are, in evaluation order: activity, status, notes, emoji. -/
def generateJsonDoc (now : NowStrs) (feed : List Nat) (d : ProgressData) :
    ProgressData × List Nat :=
  let r1 := (next feed).1
  let f1 := (next feed).2
  let r2 := (next f1).1
  let f2 := (next f1).2
  let r3 := (next f2).1
  let f3 := (next f2).2
  let r4 := (next f3).1
  let f4 := (next f3).2
  let e : Entry :=
    { timestamp := now.iso
      activity := pyChoice ACTIVITIES "" r1
      status := pyChoice ["in_progress", "completed", "planned"] "" r2
      notes := pyChoice RANDOM_TEXTS "" r3
      emoji := pyChoice EMOJIS "" r4 }
  let du := (d.daily_updates.getD [])
  let du' := upsert now.ymd e du
  ({ daily_updates := some du'
     last_modified := some now.iso
     total_entries := some du'.length }, f4)

/-- Number of bindings of key `k` in an association list. -/
def countKey (k : String) (l : List (String × Entry)) : Nat :=
  (l.filter (fun p => p.1 = k)).length

/-! ## Content generators -/

/-- `generate_text_content`: one line of the plain-text fragment,
`f"[{now:%Y-%m-%d %H:%M}] {choice(RANDOM_TEXTS)} - {choice(ACTIVITIES)}"`. -/
def textLine (now : NowStrs) (r1 r2 : Nat) : String :=
  "[" ++ now.ymdhm ++ "] " ++ pyChoice RANDOM_TEXTS "" r1 ++ " - " ++
    pyChoice ACTIVITIES "" r2

/-- The loop body of `generate_text_content`: `n` independent lines. -/
def textLinesLoop (now : NowStrs) : Nat → List Nat → List String × List Nat
  | 0, feed => ([], feed)
  | n + 1, feed =>
    let r1 := (next feed).1
    let f1 := (next feed).2
    let r2 := (next f1).1
    let f2 := (next f1).2
    let rest := (textLinesLoop now n f2).1
    let f3 := (textLinesLoop now n f2).2
    (textLine now r1 r2 :: rest, f3)

/-- `generate_text_content`: draw `num_lines = randint(MIN_LINES_TO_ADD,
MAX_LINES_TO_ADD)`, emit that many independent lines, join with a newline and
append a final newline. -/
def generateTextContent (now : NowStrs) (feed : List Nat) : String × List Nat :=
  let r0 := (next feed).1
  let f0 := (next feed).2
  let numLines := pyRandint MIN_LINES_TO_ADD MAX_LINES_TO_ADD r0
  let lines := (textLinesLoop now numLines f0).1
  let f1 := (textLinesLoop now numLines f0).2
  (String.intercalate "\n" lines ++ "\n", f1)

/-- One line of `generate_markdown_content`: dispatch on
`line_type = choice(['header', 'text', 'list', 'emoji'])` and build the line,
consuming the feed in Python evaluation order (every element of an option
list is evaluated before `random.choice` picks among them). -/
def markdownLine (now : NowStrs) (feed : List Nat) : String × List Nat :=
  let rt := (next feed).1
  let f0 := (next feed).2
  match rt % 4 with
  | 0 =>
    let r1 := (next f0).1
    let f1 := (next f0).2
    let level := pyChoice ["##", "###"] "" r1
    let r2 := (next f1).1
    let f2 := (next f1).2
    let r3 := (next f2).1
    let f3 := (next f2).2
    let text := pyChoice
      ["Update " ++ now.ymd,
       "Daily Progress - " ++ now.monthDay,
       "Quick Update " ++ pyChoice EMOJIS "" r2,
       "Notes for " ++ now.weekday] "" r3
    (level ++ " " ++ text, f3)
  | 1 =>
    let r1 := (next f0).1
    let f1 := (next f0).2
    let r2 := (next f1).1
    let f2 := (next f1).2
    let r3 := (next f2).1
    let f3 := (next f2).2
    let r4 := (next f3).1
    let f4 := (next f3).2
    let r5 := (next f4).1
    let f5 := (next f4).2
    let text := pyChoice
      ["- " ++ pyChoice RANDOM_TEXTS "" r1 ++ " at " ++ now.hm,
       "- " ++ pyChoice ACTIVITIES "" r2 ++ " in progress",
       "- " ++ pyChoice EMOJIS "" r3 ++ " " ++ pyChoice RANDOM_TEXTS "" r4,
       "- Daily update: " ++ now.ymdhm] "" r5
    (text, f5)
  | 2 =>
    let r1 := (next f0).1
    let f1 := (next f0).2
    ("- " ++ pyChoice ACTIVITIES "" r1, f1)
  | _ =>
    let r1 := (next f0).1
    let f1 := (next f0).2
    let r2 := (next f1).1
    let f2 := (next f1).2
    (pyChoice EMOJIS "" r1 ++ " " ++ pyChoice RANDOM_TEXTS "" r2, f2)

/-- The loop of `generate_markdown_content`: `n` independently drawn lines. -/
def markdownLinesLoop (now : NowStrs) : Nat → List Nat → List String × List Nat
  | 0, feed => ([], feed)
  | n + 1, feed =>
    let l := (markdownLine now feed).1
    let f1 := (markdownLine now feed).2
    let rest := (markdownLinesLoop now n f1).1
    let f2 := (markdownLinesLoop now n f1).2
    (l :: rest, f2)

/-- The `lines` list built by `generate_markdown_content`. -/
def markdownLines (now : NowStrs) (feed : List Nat) : List String × List Nat :=
  let r0 := (next feed).1
  let f0 := (next feed).2
  let numLines := pyRandint MIN_LINES_TO_ADD MAX_LINES_TO_ADD r0
  markdownLinesLoop now numLines f0

/-- `generate_markdown_content`: `'\n'.join(lines) + '\n'`. -/
def generateMarkdownContent (now : NowStrs) (feed : List Nat) : String × List Nat :=
  let lines := (markdownLines now feed).1
  let f1 := (markdownLines now feed).2
  (String.intercalate "\n" lines ++ "\n", f1)

/-- `generate_generic_content` for unknown file types. -/
def generateGenericContent (now : NowStrs) (feed : List Nat) : String × List Nat :=
  let r1 := (next feed).1
  let f1 := (next feed).2
  ("# Update " ++ now.ymdhm ++ "\n" ++ pyChoice RANDOM_TEXTS "" r1 ++ "\n", f1)

/-! ## Repository mutator (`create_or_update_file`) -/

/-- Does the string end with a line break (`str.endswith('\n')`)? -/
def endsNewline (s : String) : Bool :=
  s.data.getLast? == some '\n'

/-- The separating line break `create_or_update_file` writes before the new
content: present exactly when the existing content is nonempty and does not
already end in a line break. -/
def sepFor (existing : String) : String :=
  if existing ≠ "" ∧ ¬ endsNewline existing then "\n" else ""

/-- The file content that `create_or_update_file` persists: the file is opened
in append mode (`'a'`) for every category, and a separating newline is written
first when the existing content is nonempty and does not already end in one. -/
def appendWrite (existing content : String) : String :=
  existing ++ sepFor existing ++ content

/-- Number of newline characters in a string. -/
def countNL (s : String) : Nat :=
  s.data.count '\n'

/-- Number of lines of a file, counted the way `str.splitlines` does:
each newline ends a line, plus one trailing line when the content does not
end in a newline. -/
def lineCount (s : String) : Nat :=
  countNL s + (if s ≠ "" ∧ ¬ endsNewline s then 1 else 0)

/-- Split a character list at every dot. -/
def splitDots : List Char → List (List Char)
  | [] => [[]]
  | c :: rest =>
    let r := splitDots rest
    if c = '.' then [] :: r
    else
      match r with
      | [] => [[c]]
      | h :: t => (c :: h) :: t

/-- `pathlib.Path(...).suffix`: the extension of the final dot-separated part,
empty for dot-less names and for a bare leading-dot name like `.bashrc`. -/
def fileSuffix (s : String) : String :=
  match splitDots s.data with
  | [] => ""
  | [_] => ""
  | [first, last] => if first = [] then "" else String.mk ('.' :: last)
  | _ :: rest => String.mk ('.' :: rest.getLastD [])

/-! ## Python `str.replace`, at the character-list level

`s.replace(pat, rep)` scans `s` left to right and replaces every
non-overlapping occurrence of `pat` by `rep`. -/

/-- Is `pat` a prefix of `s`? -/
def isPrefixL : List Char → List Char → Bool
  | [], _ => true
  | _ :: _, [] => false
  | a :: as, b :: bs => a == b && isPrefixL as bs

/-- Python `str.replace` on character lists: replace every non-overlapping
occurrence of `pat` (scanning left to right) by `rep`. -/
def replaceAllL (pat rep : List Char) (s : List Char) : List Char :=
  if h : pat ≠ [] ∧ isPrefixL pat s = true then
    rep ++ replaceAllL pat rep (s.drop pat.length)
  else
    match s with
    | [] => []
    | c :: rest => c :: replaceAllL pat rep rest
termination_by s.length
decreasing_by
  · rcases pat with _ | ⟨p, ps⟩
    · exact absurd rfl h.1
    · rcases s with _ | ⟨c, cs⟩
      · simp [isPrefixL] at h
      · simp only [List.length_drop, List.length_cons]
        omega
  · simp

/-- Python `str.replace` on strings. -/
def replaceS (s pat rep : String) : String :=
  ⟨replaceAllL pat.data rep.data s.data⟩

/-! ## Message composer (`get_random_commit_message`) -/

/-- The placeholder-to-value substitution performed by
`get_random_commit_message`: the `replacements` dict is applied to the chosen
template by repeated `str.replace`, in the dict's insertion order. -/
def substitutePlaceholders (template dateS tsS activity fileUpdated emoji text : String) :
    String :=
  let m := replaceS template "{date}" dateS
  let m := replaceS m "{timestamp}" tsS
  let m := replaceS m "{activity}" activity
  let m := replaceS m "{file_updated}" fileUpdated
  let m := replaceS m "{random_emoji}" emoji
  let m := replaceS m "{random_text}" text
  m

/-- `get_random_commit_message(file_updated)`: choose a template uniformly at
random, then build the `replacements` dict — whose construction *always*
draws an activity, an emoji and a random text, in that order, regardless of
which placeholders the chosen template contains — and substitute.  Returns
the message together with the remaining random feed. -/
def getRandomCommitMessage (feed : List Nat) (dateS tsS fileUpdated : String) :
    String × List Nat :=
  let r0 := (next feed).1
  let f0 := (next feed).2
  let template := pyChoice COMMIT_MESSAGES "" r0
  let r1 := (next f0).1
  let f1 := (next f0).2
  let activity := pyChoice ACTIVITIES "" r1
  let r2 := (next f1).1
  let f2 := (next f1).2
  let emoji := pyChoice EMOJIS "" r2
  let r3 := (next f2).1
  let f3 := (next f2).2
  let text := pyChoice RANDOM_TEXTS "" r3
  (substitutePlaceholders template dateS tsS activity fileUpdated emoji text, f3)

/-! ## The repository mutator over a modelled filesystem

The filesystem is a partial map from paths (file names relative to the
repository root) to file contents.  `json.load` and `json.dumps` are external
collaborators: theorems quantify over an arbitrary `parse` (returning `none`
on parse failure, as the bare `except` does) and an arbitrary serializer
`dump`. -/

/-- A filesystem: path to file content. -/
def FS : Type := String → Option String

/-- `generate_json_content`, from the file level: the document is always
loaded from the fixed path `progress.json` (absent or unparseable content
starts from the empty dict), upserted, and serialized with `dump`. -/
def generateJsonContent (parse : String → Option ProgressData)
    (dump : ProgressData → String) (fs : FS) (now : NowStrs) (feed : List Nat) :
    String × List Nat :=
  let existing : ProgressData :=
    match fs "progress.json" with
    | none => emptyPD
    | some s => (parse s).getD emptyPD
  let d := (generateJsonDoc now feed existing).1
  let f1 := (generateJsonDoc now feed existing).2
  (dump d, f1)

/-- The content generated by `create_or_update_file` for a target path,
dispatching on `file_path.suffix` exactly as the code does. -/
def contentFor (parse : String → Option ProgressData) (dump : ProgressData → String)
    (fs : FS) (target : String) (now : NowStrs) (feed : List Nat) :
    String × List Nat :=
  if fileSuffix target = ".md" then generateMarkdownContent now feed
  else if fileSuffix target = ".json" then generateJsonContent parse dump fs now feed
  else if fileSuffix target = ".txt" then generateTextContent now feed
  else generateGenericContent now feed

/-- `create_or_update_file`: generate the category content, read the existing
content (missing file reads as `""`), and append it — every category,
including JSON, goes through the same append-mode write. -/
def createOrUpdateFile (parse : String → Option ProgressData)
    (dump : ProgressData → String) (fs : FS) (target : String) (now : NowStrs)
    (feed : List Nat) : FS × List Nat :=
  let content := (contentFor parse dump fs target now feed).1
  let f1 := (contentFor parse dump fs target now feed).2
  let existing := (fs target).getD ""
  (fun p => if p = target then some (appendWrite existing content) else fs p, f1)

/-! ## File selector (inside `run_daily_automation`) -/

/-- `random.sample(pool, k)` as `k` rounds of choose-an-index-and-remove:
each draw `r` selects the element at index `r % len(remaining)` and removes
it from the pool before the next round. -/
def sample (pool : List α) (k : Nat) (feed : List Nat) : List α × List Nat :=
  match k, pool with
  | 0, _ => ([], feed)
  | _ + 1, [] => ([], feed)
  | k' + 1, p :: ps =>
    let r := (next feed).1
    let f1 := (next feed).2
    let i := r % (p :: ps).length
    let chosen := (p :: ps).getD i p
    let rest := (sample ((p :: ps).eraseIdx i) k' f1).1
    let f2 := (sample ((p :: ps).eraseIdx i) k' f1).2
    (chosen :: rest, f2)

/-- The file selection of `run_daily_automation`:
`random.sample(files, min(random.randint(1, MAX_FILES_PER_DAY), len(files)))`. -/
def selectFiles (files : List String) (feed : List Nat) : List String × List Nat :=
  let r0 := (next feed).1
  let f0 := (next feed).2
  let k := min (pyRandint 1 MAX_FILES_PER_DAY r0) files.length
  sample files k f0

/-! ## VCS orchestrator (`run_daily_automation`)

The git collaborator is opaque: the outcomes of `git add`, the
`git status --porcelain` query, `git commit` and `git push` are inputs, and
the model records which write operations were invoked. -/

/-- A write operation issued to the git collaborator. -/
inductive GitOp where
  | add
  | commit (msg : String)
  | push
deriving DecidableEq, Repr

/-- The opaque outcomes of the external git collaborator for one run. -/
structure GitEnv where
  /-- whether `git add .` succeeds -/
  addOk : Bool
  /-- the `git status --porcelain` answer (`check_for_changes`) -/
  hasChanges : Bool
  /-- the first line of `git diff --cached --name-only`, `none` when empty -/
  firstStaged : Option String
  /-- whether `git commit` succeeds -/
  commitOk : Bool
  /-- whether `git push` succeeds -/
  pushOk : Bool

/-- `make_commit`: stage everything, bail out when staging fails or nothing
changed, compose a message from the first staged file name and commit.
Returns the success flag, the git write operations issued, and the remaining
random feed. -/
def makeCommit (env : GitEnv) (now : NowStrs) (feed : List Nat) :
    Bool × List GitOp × List Nat :=
  if ¬ env.addOk then (false, [GitOp.add], feed)
  else if ¬ env.hasChanges then (false, [GitOp.add], feed)
  else
    let fileUpdated := env.firstStaged.getD "files"
    let msg := (getRandomCommitMessage feed now.ymd now.ymdhms fileUpdated).1
    let f1 := (getRandomCommitMessage feed now.ymd now.ymdhms fileUpdated).2
    if ¬ env.commitOk then (false, [GitOp.add, GitOp.commit msg], f1)
    else (true, [GitOp.add, GitOp.commit msg], f1)

/-- `run_daily_automation`: select files, mutate each (the success of one
file's mutation is the opaque `mutOk` — a mutation fails only on an I/O or
serialization exception), and when at least one mutation succeeded run
`make_commit` and `push_changes`.  Returns the overall success flag and the
git write operations issued. -/
def runDailyAutomation (files : List String) (mutOk : String → Bool)
    (env : GitEnv) (now : NowStrs) (feed : List Nat) : Bool × List GitOp :=
  let selected := (selectFiles files feed).1
  let f0 := (selectFiles files feed).2
  let updated := selected.filter mutOk
  if updated = [] then (false, [])
  else
    let committed := (makeCommit env now f0).1
    let ops := (makeCommit env now f0).2.1
    if ¬ committed then (false, ops)
    else if ¬ env.pushOk then (false, ops ++ [GitOp.push])
    else (true, ops ++ [GitOp.push])

/-! ## The streamlined orchestrator with a pull step -/

/-- An effect of the streamlined orchestrator on the repository: a remote
pull, a write to a file under the repository root, staging, a commit, or a
push. -/
inductive Eff where
  | pull
  | writeFile (path : String)
  | stage
  | commit (msg : String)
  | push
deriving DecidableEq, Repr

/-- Modelled from the spec: the repository's streamlined implementation —
the second, pull-before-write variant of `run_daily_automation` described in
§4.5 of the design, which is not among the source files — sequences
`Pulling → Selecting → Mutating → Staging → Diffing → Composing → Committing
→ Pushing`.  On a pull failure it transitions directly to `Done(failure)`,
before any selection or local mutation; on an empty successfully-mutated
subset it stops before staging. -/
def runOrchestrator (pullOk : Bool) (selected : List String)
    (mutOk : String → Bool) (env : GitEnv) (msg : String) : Bool × List Eff :=
  if ¬ pullOk then (false, [Eff.pull]) else
  let updated := selected.filter mutOk
  let writes := updated.map Eff.writeFile
  if updated = [] then (false, Eff.pull :: writes)
  else if ¬ env.addOk then (false, Eff.pull :: writes ++ [Eff.stage])
  else if ¬ env.hasChanges then (false, Eff.pull :: writes ++ [Eff.stage])
  else if ¬ env.commitOk then (false, Eff.pull :: writes ++ [Eff.stage, Eff.commit msg])
  else if ¬ env.pushOk then
    (false, Eff.pull :: writes ++ [Eff.stage, Eff.commit msg, Eff.push])
  else (true, Eff.pull :: writes ++ [Eff.stage, Eff.commit msg, Eff.push])

/-! ## Auxiliary definitions used by the statements and proofs -/

/-- Does `pat` occur as a contiguous sublist of `s`? -/
def hasSubstr (pat : List Char) : List Char → Bool
  | [] => isPrefixL pat []
  | c :: rest => isPrefixL pat (c :: rest) || hasSubstr pat rest

/-- Python `pat in s` on strings. -/
def containsS (s pat : String) : Bool :=
  hasSubstr pat.data s.data

/-- Is there an index below both lengths at which `p` and `q` hold different
characters?  When so, `p` is a prefix of no extension of `q`. -/
def mismatchIn : List Char → List Char → Bool
  | [], _ => false
  | _ :: _, [] => false
  | a :: as, b :: bs => !(a == b) || mismatchIn as bs

/-- A segment of a template string: either a literal chunk or one of the
placeholder tokens. -/
inductive Seg where
  | lit (cs : List Char)
  | ph (p : List Char)
deriving DecidableEq, Repr

/-- Concatenate a segment decomposition back into a character list. -/
def segStr : List Seg → List Char
  | [] => []
  | Seg.lit c :: r => c ++ segStr r
  | Seg.ph p :: r => p ++ segStr r

/-- The effect of one `str.replace(pat, rep)` pass on a segment
decomposition: placeholder segments equal to `pat` become the literal `rep`;
everything else is untouched. -/
def stepSeg (pat rep : List Char) (segs : List Seg) : List Seg :=
  segs.map fun sg =>
    match sg with
    | Seg.lit c => Seg.lit c
    | Seg.ph p => if p = pat then Seg.lit rep else Seg.ph p

/-- Well-formedness of a segment for a single `str.replace(pat, _)` pass:
literal chunks hold no brace, and a placeholder segment is a nonempty
brace-headed token that either equals `pat` or differs from it at some index,
so that the pass either rewrites it whole or walks straight past it. -/
def segOkFor (pat : List Char) : Seg → Bool
  | Seg.lit c => !(c.contains '{')
  | Seg.ph p =>
    !(p.isEmpty) && (p.head? == some '{') && !(p.tail.contains '{') &&
      (p == pat || mismatchIn pat p)

/-- Sequential application of `str.replace` passes, leftmost pair first —
the shape of the substitution loop in `get_random_commit_message`. -/
def chainReplace (pairs : List (List Char × List Char)) (s : List Char) : List Char :=
  pairs.foldl (fun acc pr => replaceAllL pr.1 pr.2 acc) s

/-- The `replacements` dict of `get_random_commit_message`, in insertion
order, with explicit values. -/
def sixPairs (dateS tsS activity fileUpdated emoji text : String) :
    List (List Char × List Char) :=
  [("{date}".data, dateS.data),
   ("{timestamp}".data, tsS.data),
   ("{activity}".data, activity.data),
   ("{file_updated}".data, fileUpdated.data),
   ("{random_emoji}".data, emoji.data),
   ("{random_text}".data, text.data)]

/-- The placeholder tokens of the `replacements` dict. -/
def sixPats : List (List Char) :=
  ["{date}".data, "{timestamp}".data, "{activity}".data,
   "{file_updated}".data, "{random_emoji}".data, "{random_text}".data]

/-- The segment is the placeholder of one of the given replacement pairs. -/
def SegPhIn (pairs : List (List Char × List Char)) (sg : Seg) : Prop :=
  ∃ pr ∈ pairs, sg = Seg.ph pr.1

/-- Decidable well-formedness of a template decomposition: literal chunks are
brace-free and every placeholder segment is one of the six placeholder
tokens. -/
def segsOkSix (segs : List Seg) : Bool :=
  segs.all fun sg =>
    match sg with
    | Seg.lit c => !(c.contains '{')
    | Seg.ph p => sixPats.contains p

/-- The fixed catalog of markdown line templates of
`generate_markdown_content`: a line belongs to the catalog when it is one of
the header lines (either level, any of the four header texts), one of the
four bullet text lines, an activity list bullet, or an emoji line. -/
def IsCatalogLine (now : NowStrs) (l : String) : Prop :=
  (∃ lvl ∈ (["##", "###"] : List String), ∃ t,
    (t = "Update " ++ now.ymd ∨ t = "Daily Progress - " ++ now.monthDay ∨
     (∃ e ∈ EMOJIS, t = "Quick Update " ++ e) ∨ t = "Notes for " ++ now.weekday) ∧
    l = lvl ++ " " ++ t) ∨
  ((∃ t ∈ RANDOM_TEXTS, l = "- " ++ t ++ " at " ++ now.hm) ∨
   (∃ a ∈ ACTIVITIES, l = "- " ++ a ++ " in progress") ∨
   (∃ e ∈ EMOJIS, ∃ t ∈ RANDOM_TEXTS, l = "- " ++ e ++ " " ++ t) ∨
   l = "- Daily update: " ++ now.ymdhm) ∨
  (∃ a ∈ ACTIVITIES, l = "- " ++ a) ∨
  (∃ e ∈ EMOJIS, ∃ t ∈ RANDOM_TEXTS, l = e ++ " " ++ t)

/-- A concrete clock instant, used by the concrete-input theorems. -/
def sampleNow : NowStrs :=
  { ymd := "2026-10-12"
    ymdhms := "2026-10-12 07:00:00"
    ymdhm := "2026-10-12 07:00"
    hm := "07:00"
    monthDay := "October 12"
    weekday := "Monday"
    iso := "2026-10-12T07:00:00" }

/-! ## Lemmas about the `str.replace` model -/

theorem replaceAllL_nil (pat rep : List Char) : replaceAllL pat rep [] = [] := by
  rw [replaceAllL]
  rcases pat with _ | ⟨p, ps⟩ <;> simp [isPrefixL]

theorem replaceAllL_cons_neg (pat rep : List Char) (c : Char) (s : List Char)
    (h : isPrefixL pat (c :: s) = false) :
    replaceAllL pat rep (c :: s) = c :: replaceAllL pat rep s := by
  rw [replaceAllL]
  simp [h]

theorem replaceAllL_pos (pat rep s : List Char) (hp : pat ≠ [])
    (h : isPrefixL pat s = true) :
    replaceAllL pat rep s = rep ++ replaceAllL pat rep (s.drop pat.length) := by
  rw [replaceAllL]
  simp [hp, h]

theorem isPrefixL_self_append (p t : List Char) : isPrefixL p (p ++ t) = true := by
  induction p with
  | nil => simp [isPrefixL]
  | cons a as ih => simp [isPrefixL, ih]

theorem isPrefixL_append_false (p q t : List Char) (h : mismatchIn p q = true) :
    isPrefixL p (q ++ t) = false := by
  induction p generalizing q with
  | nil => simp [mismatchIn] at h
  | cons a as ih =>
    rcases q with _ | ⟨b, bs⟩
    · simp [mismatchIn] at h
    · simp only [mismatchIn, Bool.or_eq_true, Bool.not_eq_true'] at h
      simp only [List.cons_append, isPrefixL, Bool.and_eq_false_iff]
      rcases h with h | h
      · exact Or.inl h
      · exact Or.inr (ih bs h)

theorem replaceAllL_match (pat rep t : List Char) (hp : pat ≠ []) :
    replaceAllL pat rep (pat ++ t) = rep ++ replaceAllL pat rep t := by
  rw [replaceAllL_pos pat rep _ hp (isPrefixL_self_append pat t)]
  congr 1
  congr 1
  exact List.drop_left pat t

theorem replaceAllL_lit_append (pat rep : List Char) (hp : pat.head? = some '{')
    (c t : List Char) (hc : '{' ∉ c) :
    replaceAllL pat rep (c ++ t) = c ++ replaceAllL pat rep t := by
  induction c with
  | nil => simp
  | cons a as ih =>
    have ha : ('{' : Char) ≠ a := fun h => hc (h ▸ List.mem_cons_self a as)
    have hpre : isPrefixL pat ((a :: as) ++ t) = false := by
      rcases pat with _ | ⟨p, ps⟩
      · simp at hp
      · have hpb : p = '{' := by simpa using hp
        subst hpb
        simp only [List.cons_append, isPrefixL, Bool.and_eq_false_iff]
        exact Or.inl (by simpa using ha)
    show replaceAllL pat rep (a :: (as ++ t)) = a :: (as ++ replaceAllL pat rep t)
    have h2 := replaceAllL_cons_neg pat rep a (as ++ t) (by exact hpre)
    rw [h2, ih (fun hmem => hc (List.mem_cons_of_mem a hmem))]

theorem replaceAllL_no_brace (pat rep : List Char) (hp : pat.head? = some '{')
    (s : List Char) (hs : '{' ∉ s) : replaceAllL pat rep s = s := by
  have h := replaceAllL_lit_append pat rep hp s [] hs
  simpa [replaceAllL_nil] using h

/-! ## Lemmas about segment decompositions -/

theorem segOkFor_ph (pat p : List Char) (h1 : p ≠ []) (h2 : p.head? = some '{')
    (h3 : '{' ∉ p.tail) (h4 : p = pat ∨ mismatchIn pat p = true) :
    segOkFor pat (Seg.ph p) = true := by
  have hc : p.tail.contains '{' = false := by simpa using h3
  have he : p.isEmpty = false := by simpa [List.isEmpty_eq_false] using h1
  simp only [segOkFor, he, h2, hc, Bool.not_false, beq_self_eq_true,
    Bool.and_self, Bool.true_and, Bool.and_eq_true, Bool.or_eq_true,
    beq_iff_eq]
  rcases h4 with h4 | h4
  · exact Or.inl h4
  · exact Or.inr h4

theorem segOkFor_lit (pat c : List Char) (hc : '{' ∉ c) :
    segOkFor pat (Seg.lit c) = true := by
  have hcon : c.contains '{' = false := by simpa using hc
  simp [segOkFor, hcon, hc]

theorem step_seg_eq (pat rep : List Char) (hne : pat ≠ [])
    (hhd : pat.head? = some '{') (segs : List Seg)
    (h : ∀ sg ∈ segs, segOkFor pat sg = true) :
    replaceAllL pat rep (segStr segs) = segStr (stepSeg pat rep segs) := by
  induction segs with
  | nil => simp [segStr, stepSeg, replaceAllL_nil]
  | cons sg rest ih =>
    have hrest : ∀ s ∈ rest, segOkFor pat s = true :=
      fun s hs => h s (List.mem_cons_of_mem _ hs)
    have hsg : segOkFor pat sg = true := h sg (List.mem_cons_self _ _)
    rcases sg with c | p
    · have hc : '{' ∉ c := by
        simpa [segOkFor, List.elem_iff] using hsg
      show replaceAllL pat rep (c ++ segStr rest) =
        segStr (Seg.lit c :: stepSeg pat rep rest)
      rw [replaceAllL_lit_append pat rep hhd c _ hc, ih hrest]
      rfl
    · simp only [segOkFor, Bool.and_eq_true, Bool.or_eq_true, beq_iff_eq,
        Bool.not_eq_true', List.isEmpty_eq_false, List.elem_iff,
        decide_eq_false_iff_not] at hsg
      obtain ⟨⟨⟨hpne, hphd⟩, hptail⟩, hcase⟩ := hsg
      by_cases hq : p = pat
      · subst hq
        show replaceAllL p rep (p ++ segStr rest) =
          segStr (stepSeg p rep (Seg.ph p :: rest))
        rw [replaceAllL_match p rep _ hne, ih hrest]
        simp [stepSeg, segStr]
      · have hmis : mismatchIn pat p = true := by
          rcases hcase with hcase | hcase
          · exact absurd hcase hq
          · exact hcase
        rcases p with _ | ⟨c0, cs⟩
        · exact absurd rfl hpne
        · have hc0 : c0 = '{' := by simpa using hphd
          subst hc0
          have hcs : '{' ∉ cs := by simpa using hptail
          show replaceAllL pat rep (('{' :: cs) ++ segStr rest) =
            segStr (stepSeg pat rep (Seg.ph ('{' :: cs) :: rest))
          have hpre := isPrefixL_append_false pat ('{' :: cs) (segStr rest) hmis
          have h2 := replaceAllL_cons_neg pat rep '{' (cs ++ segStr rest) (by exact hpre)
          calc replaceAllL pat rep (('{' :: cs) ++ segStr rest)
              = '{' :: replaceAllL pat rep (cs ++ segStr rest) := h2
            _ = '{' :: (cs ++ replaceAllL pat rep (segStr rest)) := by
                rw [replaceAllL_lit_append pat rep hhd cs _ hcs]
            _ = ('{' :: cs) ++ segStr (stepSeg pat rep rest) := by rw [ih hrest]; rfl
            _ = segStr (stepSeg pat rep (Seg.ph ('{' :: cs) :: rest)) := by
                simp [stepSeg, segStr, hq]

theorem segStr_no_brace (segs : List Seg)
    (h : ∀ sg ∈ segs, ∃ c, sg = Seg.lit c ∧ '{' ∉ c) : '{' ∉ segStr segs := by
  induction segs with
  | nil => simp [segStr]
  | cons sg rest ih =>
    obtain ⟨c, rfl, hc⟩ := h sg (List.mem_cons_self _ _)
    have := ih fun s hs => h s (List.mem_cons_of_mem _ hs)
    simp only [segStr, List.mem_append]
    rintro (hm | hm)
    · exact hc hm
    · exact this hm

theorem chain_replace_brace_free (pairs : List (List Char × List Char)) :
    ∀ (segs : List Seg),
    (∀ pr ∈ pairs, pr.1 ≠ [] ∧ pr.1.head? = some '{' ∧ '{' ∉ pr.1.tail) →
    (∀ pr ∈ pairs, '{' ∉ pr.2) →
    pairs.Pairwise (fun a b => mismatchIn a.1 b.1 = true) →
    (∀ sg ∈ segs, (∃ c, sg = Seg.lit c ∧ '{' ∉ c) ∨ SegPhIn pairs sg) →
    '{' ∉ chainReplace pairs (segStr segs) := by
  induction pairs with
  | nil =>
    intro segs _ _ _ hsegs
    simp only [chainReplace, List.foldl_nil]
    refine segStr_no_brace segs fun sg hs => ?_
    rcases hsegs sg hs with h | ⟨pr, hpr, _⟩
    · exact h
    · exact absurd hpr (List.not_mem_nil pr)
  | cons pv rest ih =>
    intro segs hpat hval hmis hsegs
    have hhead := hpat pv (List.mem_cons_self _ _)
    have hstep : replaceAllL pv.1 pv.2 (segStr segs) =
        segStr (stepSeg pv.1 pv.2 segs) := by
      refine step_seg_eq pv.1 pv.2 hhead.1 hhead.2.1 segs fun sg hs => ?_
      rcases hsegs sg hs with ⟨c, rfl, hc⟩ | ⟨pr, hpr, rfl⟩
      · exact segOkFor_lit pv.1 c hc
      · have hphfacts : pr.1 ≠ [] ∧ pr.1.head? = some '{' ∧ '{' ∉ pr.1.tail :=
          hpat pr hpr
        by_cases hq : pr.1 = pv.1
        · exact segOkFor_ph pv.1 pr.1 hphfacts.1 hphfacts.2.1 hphfacts.2.2
            (Or.inl hq)
        · have hmem : pr ∈ rest := by
            rcases List.mem_cons.mp hpr with rfl | hmem
            · exact absurd rfl hq
            · exact hmem
          have hm : mismatchIn pv.1 pr.1 = true :=
            (List.pairwise_cons.mp hmis).1 pr hmem
          exact segOkFor_ph pv.1 pr.1 hphfacts.1 hphfacts.2.1 hphfacts.2.2
            (Or.inr hm)
    show '{' ∉ chainReplace (pv :: rest) (segStr segs)
    have hunfold : chainReplace (pv :: rest) (segStr segs) =
        chainReplace rest (replaceAllL pv.1 pv.2 (segStr segs)) := rfl
    rw [hunfold, hstep]
    refine ih (stepSeg pv.1 pv.2 segs)
      (fun pr hpr => hpat pr (List.mem_cons_of_mem _ hpr))
      (fun pr hpr => hval pr (List.mem_cons_of_mem _ hpr))
      (List.pairwise_cons.mp hmis).2 ?_
    intro sg hs
    simp only [stepSeg, List.mem_map] at hs
    obtain ⟨sg0, hs0, rfl⟩ := hs
    rcases hsegs sg0 hs0 with ⟨c, rfl, hc⟩ | ⟨pr, hpr, rfl⟩
    · exact Or.inl ⟨c, rfl, hc⟩
    · by_cases hq : pr.1 = pv.1
      · refine Or.inl ⟨pv.2, ?_, hval pv (List.mem_cons_self _ _)⟩
        simp [hq]
      · refine Or.inr ⟨pr, ?_, ?_⟩
        · rcases List.mem_cons.mp hpr with rfl | hmem
          · exact absurd rfl hq
          · exact hmem
        · simp [hq]

/-! ## The six replacement pairs of the message composer -/

theorem substData (t d ts a f e x : String) :
    (substitutePlaceholders t d ts a f e x).data =
      chainReplace (sixPairs d ts a f e x) t.data := rfl

theorem sixPairs_fst (d ts a f e x : String) :
    (sixPairs d ts a f e x).map Prod.fst = sixPats := rfl

theorem sixPairs_pat_facts (d ts a f e x : String) :
    ∀ pr ∈ sixPairs d ts a f e x,
      pr.1 ≠ [] ∧ pr.1.head? = some '{' ∧ '{' ∉ pr.1.tail := by
  intro pr hpr
  have h1 : pr.1 ∈ sixPats := by
    rw [← sixPairs_fst d ts a f e x]
    exact List.mem_map_of_mem Prod.fst hpr
  simp only [sixPats, List.mem_cons, List.not_mem_nil, or_false] at h1
  rcases h1 with h1 | h1 | h1 | h1 | h1 | h1 <;> rw [h1] <;>
    exact ⟨by decide, by decide, by decide⟩

theorem sixPats_pairwise : sixPats.Pairwise (fun a b => mismatchIn a b = true) := by
  decide

theorem sixPairs_pairwise (d ts a f e x : String) :
    (sixPairs d ts a f e x).Pairwise (fun a b => mismatchIn a.1 b.1 = true) := by
  have h := sixPats_pairwise
  rw [← sixPairs_fst d ts a f e x] at h
  exact List.pairwise_map.mp h

theorem sixPairs_val_free (d ts a f e x : String) (hd : '{' ∉ d.data)
    (ht : '{' ∉ ts.data) (ha : '{' ∉ a.data) (hf : '{' ∉ f.data)
    (he : '{' ∉ e.data) (hx : '{' ∉ x.data) :
    ∀ pr ∈ sixPairs d ts a f e x, '{' ∉ pr.2 := by
  intro pr hpr
  simp only [sixPairs, List.mem_cons, List.not_mem_nil, or_false] at hpr
  rcases hpr with rfl | rfl | rfl | rfl | rfl | rfl
  · exact hd
  · exact ht
  · exact ha
  · exact hf
  · exact he
  · exact hx

theorem subst_brace_free_of_segs (d ts a f e x : String) (hd : '{' ∉ d.data)
    (ht : '{' ∉ ts.data) (ha : '{' ∉ a.data) (hf : '{' ∉ f.data)
    (he : '{' ∉ e.data) (hx : '{' ∉ x.data) (t : String) (segs : List Seg)
    (hseg : t.data = segStr segs) (hok : segsOkSix segs = true) :
    '{' ∉ (substitutePlaceholders t d ts a f e x).data := by
  rw [substData, hseg]
  apply chain_replace_brace_free _ _ (sixPairs_pat_facts d ts a f e x)
    (sixPairs_val_free d ts a f e x hd ht ha hf he hx)
    (sixPairs_pairwise d ts a f e x)
  intro sg hsg
  have hok' := (List.all_eq_true.mp hok) sg hsg
  rcases sg with c | p
  · refine Or.inl ⟨c, rfl, ?_⟩
    simpa using hok'
  · have hp : p ∈ sixPats := by simpa [List.elem_iff] using hok'
    have hp2 : p ∈ (sixPairs d ts a f e x).map Prod.fst := by
      rw [sixPairs_fst]; exact hp
    obtain ⟨pr, hpr, hpr2⟩ := List.mem_map.mp hp2
    exact Or.inr ⟨pr, hpr, by rw [hpr2]⟩

/-! ## Random-choice and catalog lemmas -/

theorem getD_mem (l : List α) (i : Nat) (d : α) (hi : i < l.length) :
    l.getD i d ∈ l := by
  induction l generalizing i with
  | nil => simp at hi
  | cons a as ih =>
    rcases i with _ | i
    · simp [List.getD]
    · simp only [List.getD_cons_succ]
      exact List.mem_cons_of_mem a (ih i (by simpa using hi))

theorem pyChoice_mem (l : List α) (d : α) (r : Nat) (h : l ≠ []) :
    pyChoice l d r ∈ l :=
  getD_mem l _ d (Nat.mod_lt _ (List.length_pos.mpr h))

theorem activities_brace_free : ∀ s ∈ ACTIVITIES, '{' ∉ s.data := by decide

theorem emojis_brace_free : ∀ s ∈ EMOJIS, '{' ∉ s.data := by decide

theorem random_texts_brace_free : ∀ s ∈ RANDOM_TEXTS, '{' ∉ s.data := by decide

/-! ## Lemmas about `sample` and `selectFiles` -/

theorem sample_length (k : Nat) :
    ∀ (pool : List α) (feed : List Nat), k ≤ pool.length →
      (sample pool k feed).1.length = k := by
  induction k with
  | zero => intro pool feed _; rfl
  | succ k ih =>
    intro pool feed h
    rcases pool with _ | ⟨p, ps⟩
    · simp at h
    · simp only [sample, List.length_cons]
      have hi : (next feed).1 % (ps.length + 1) < (p :: ps).length :=
        Nat.mod_lt _ (Nat.succ_pos _)
      have hlen : ((p :: ps).eraseIdx ((next feed).1 % (ps.length + 1))).length =
          ps.length := by
        rw [List.length_eraseIdx_of_lt hi]
        simp
      rw [ih _ _ (by rw [hlen]; simpa using h)]

theorem sample_subset (k : Nat) :
    ∀ (pool : List α) (feed : List Nat) (x : α),
      x ∈ (sample pool k feed).1 → x ∈ pool := by
  induction k with
  | zero => intro pool feed x hx; simp [sample] at hx
  | succ k ih =>
    intro pool feed x hx
    rcases pool with _ | ⟨p, ps⟩
    · simpa [sample] using hx
    · have hx' : x ∈ ((p :: ps).getD ((next feed).1 % (p :: ps).length) p ::
          (sample ((p :: ps).eraseIdx ((next feed).1 % (p :: ps).length)) k
            (next feed).2).1) := hx
      rcases List.mem_cons.mp hx' with rfl | hmem
      · exact getD_mem _ _ _ (Nat.mod_lt _ (by simp))
      · exact (List.eraseIdx_sublist (p :: ps) _).subset (ih _ _ _ hmem)

theorem getD_not_mem_eraseIdx (l : List α) (d : α) :
    ∀ (i : Nat), l.Nodup → i < l.length → l.getD i d ∉ l.eraseIdx i := by
  induction l with
  | nil => intro i _ hi; simp at hi
  | cons a as ih =>
    intro i hnd hi
    rcases i with _ | i
    · simpa [List.getD] using (List.nodup_cons.mp hnd).1
    · simp only [List.getD_cons_succ, List.eraseIdx_cons_succ, List.mem_cons,
        not_or]
      have hlt : i < as.length := by simpa using hi
      constructor
      · intro heq
        exact (List.nodup_cons.mp hnd).1 (heq ▸ getD_mem as i d hlt)
      · exact ih i (List.nodup_cons.mp hnd).2 hlt

theorem sample_nodup (k : Nat) :
    ∀ (pool : List α) (feed : List Nat), pool.Nodup →
      (sample pool k feed).1.Nodup := by
  induction k with
  | zero => intro pool feed _; simp [sample]
  | succ k ih =>
    intro pool feed hnd
    rcases pool with _ | ⟨p, ps⟩
    · simp [sample]
    · show ((p :: ps).getD _ p :: (sample ((p :: ps).eraseIdx _) k _).1).Nodup
      rw [List.nodup_cons]
      constructor
      · intro hmem
        exact getD_not_mem_eraseIdx (p :: ps) p _ hnd
          (Nat.mod_lt _ (by simp)) (sample_subset k _ _ _ hmem)
      · exact ih _ _ (hnd.sublist (List.eraseIdx_sublist (p :: ps) _))

/-! ## Lemmas about `upsert` and `countKey` -/

theorem upsert_length_of_mem (k : String) (v : Entry) :
    ∀ (l : List (String × Entry)), k ∈ l.map Prod.fst →
      (upsert k v l).length = l.length := by
  intro l
  induction l with
  | nil => intro h; simp at h
  | cons p rest ih =>
    rcases p with ⟨k', v'⟩
    intro h
    by_cases hk : k' = k
    · simp [upsert, hk]
    · have hmem : k ∈ rest.map Prod.fst := by
        rw [List.map_cons] at h
        rcases List.mem_cons.mp h with h1 | h1
        · exact absurd h1.symm hk
        · exact h1
      simp [upsert, hk, ih hmem]

theorem countKey_eq_zero (k : String) :
    ∀ (l : List (String × Entry)), k ∉ l.map Prod.fst → countKey k l = 0 := by
  intro l
  induction l with
  | nil => intro _; rfl
  | cons p rest ih =>
    intro h
    have h1 : ¬ (p.1 = k) := by
      intro heq
      apply h
      rw [List.map_cons, ← heq]
      exact List.mem_cons_self _ _
    have h2 : k ∉ rest.map Prod.fst := by
      intro hm
      apply h
      rw [List.map_cons]
      exact List.mem_cons_of_mem _ hm
    unfold countKey at ih ⊢
    rw [List.filter_cons]
    simp [h1]
    intro a b hab heq
    subst heq
    exact h2 (List.mem_map_of_mem Prod.fst hab)

theorem countKey_upsert (k : String) (v : Entry) :
    ∀ (l : List (String × Entry)), (l.map Prod.fst).Nodup →
      countKey k (upsert k v l) = 1 := by
  intro l
  induction l with
  | nil => simp [upsert, countKey]
  | cons p rest ih =>
    rcases p with ⟨k', v'⟩
    intro hnd
    rw [List.map_cons] at hnd
    have hnd2 := List.nodup_cons.mp hnd
    by_cases hk : k' = k
    · subst hk
      have hz : countKey k' rest = 0 := countKey_eq_zero k' rest hnd2.1
      unfold countKey at hz ⊢
      simp [upsert, List.filter_cons, hz]
    · have hrec := ih hnd2.2
      unfold countKey at hrec ⊢
      simp [upsert, hk, List.filter_cons, hrec]

/-! ## Lemmas about line counting and the append-mode write -/

theorem countNL_append (a b : String) : countNL (a ++ b) = countNL a + countNL b := by
  simp [countNL, String.data_append, List.count_append]

theorem endsNewline_append_nl (a : String) : endsNewline (a ++ "\n") = true := by
  show ((a ++ "\n").data.getLast? == some '\n') = true
  rw [String.data_append]
  have : ("\n" : String).data = ['\n'] := rfl
  rw [this, List.getLast?_append_cons]
  simp

theorem lineCount_of_ends_nl (a : String) : lineCount (a ++ "\n") = countNL (a ++ "\n") := by
  simp [lineCount, endsNewline_append_nl]

theorem lineCount_le_countNL_succ (s : String) : lineCount s ≤ countNL s + 1 := by
  unfold lineCount
  split <;> omega

theorem appendWrite_lineCount_lt (old y : String) :
    lineCount old < lineCount (appendWrite old (y ++ "\n")) := by
  have hassoc : appendWrite old (y ++ "\n") =
      ((old ++ sepFor old ++ y) ++ "\n") := by
    unfold appendWrite
    rw [String.append_assoc, String.append_assoc, String.append_assoc]
  rw [hassoc, lineCount_of_ends_nl]
  have h1 : countNL ((old ++ sepFor old ++ y) ++ "\n") =
      countNL old + countNL (sepFor old) + countNL y + 1 := by
    rw [countNL_append, countNL_append, countNL_append]
    have : countNL "\n" = 1 := rfl
    omega
  rw [h1]
  unfold lineCount
  split
  · rename_i hc
    have : countNL (sepFor old) = 1 := by
      unfold sepFor
      rw [if_pos hc]
      rfl
    omega
  · omega

/-! ## Markdown generator lemmas -/

theorem markdownLine_catalog (now : NowStrs) (feed : List Nat) :
    IsCatalogLine now (markdownLine now feed).1 := by
  have h4 : (next feed).1 % 4 = 0 ∨ (next feed).1 % 4 = 1 ∨
      (next feed).1 % 4 = 2 ∨ (next feed).1 % 4 = 3 := by omega
  unfold markdownLine
  rcases h4 with h | h | h | h <;> simp only [h]
  · refine Or.inl ⟨pyChoice ["##", "###"] "" _,
      pyChoice_mem _ _ _ (List.cons_ne_nil _ _), pyChoice _ "" _, ?_, rfl⟩
    have hmem := pyChoice_mem
      ["Update " ++ now.ymd,
       "Daily Progress - " ++ now.monthDay,
       "Quick Update " ++ pyChoice EMOJIS "" ((next ((next ((next feed).2)).2)).1),
       "Notes for " ++ now.weekday] ""
      ((next ((next ((next ((next feed).2)).2)).2)).1) (List.cons_ne_nil _ _)
    simp only [List.mem_cons, List.not_mem_nil, or_false] at hmem
    rcases hmem with h1 | h1 | h1 | h1
    · exact Or.inl h1
    · exact Or.inr (Or.inl h1)
    · exact Or.inr (Or.inr (Or.inl ⟨pyChoice EMOJIS "" _,
        pyChoice_mem _ _ _ (by decide), h1⟩))
    · exact Or.inr (Or.inr (Or.inr h1))
  · refine Or.inr (Or.inl ?_)
    have hmem := pyChoice_mem
      ["- " ++ pyChoice RANDOM_TEXTS "" ((next ((next feed).2)).1) ++ " at " ++ now.hm,
       "- " ++ pyChoice ACTIVITIES "" ((next ((next ((next feed).2)).2)).1) ++
         " in progress",
       "- " ++ pyChoice EMOJIS "" ((next ((next ((next ((next feed).2)).2)).2)).1) ++
         " " ++ pyChoice RANDOM_TEXTS ""
           ((next ((next ((next ((next ((next feed).2)).2)).2)).2)).1),
       "- Daily update: " ++ now.ymdhm] ""
      ((next ((next ((next ((next ((next ((next feed).2)).2)).2)).2)).2)).1)
      (List.cons_ne_nil _ _)
    simp only [List.mem_cons, List.not_mem_nil, or_false] at hmem
    rcases hmem with h1 | h1 | h1 | h1
    · exact Or.inl ⟨pyChoice RANDOM_TEXTS "" _,
        pyChoice_mem _ _ _ (by decide), h1⟩
    · exact Or.inr (Or.inl ⟨pyChoice ACTIVITIES "" _,
        pyChoice_mem _ _ _ (by decide), h1⟩)
    · exact Or.inr (Or.inr (Or.inl ⟨pyChoice EMOJIS "" _,
        pyChoice_mem _ _ _ (by decide), pyChoice RANDOM_TEXTS "" _,
        pyChoice_mem _ _ _ (by decide), h1⟩))
    · exact Or.inr (Or.inr (Or.inr h1))
  · exact Or.inr (Or.inr (Or.inl ⟨pyChoice ACTIVITIES "" _,
      pyChoice_mem _ _ _ (by decide), rfl⟩))
  · exact Or.inr (Or.inr (Or.inr ⟨pyChoice EMOJIS "" _,
      pyChoice_mem _ _ _ (by decide), pyChoice RANDOM_TEXTS "" _,
      pyChoice_mem _ _ _ (by decide), rfl⟩))

theorem markdownLinesLoop_length (now : NowStrs) (n : Nat) :
    ∀ feed : List Nat, (markdownLinesLoop now n feed).1.length = n := by
  induction n with
  | zero => intro feed; rfl
  | succ n ih =>
    intro feed
    show ((markdownLine now feed).1 ::
      (markdownLinesLoop now n ((markdownLine now feed).2)).1).length = n + 1
    rw [List.length_cons, ih]

theorem markdownLinesLoop_catalog (now : NowStrs) (n : Nat) :
    ∀ feed : List Nat, ∀ l ∈ (markdownLinesLoop now n feed).1,
      IsCatalogLine now l := by
  induction n with
  | zero => intro feed l hl; simp [markdownLinesLoop] at hl
  | succ n ih =>
    intro feed l hl
    have hl' : l ∈ ((markdownLine now feed).1 ::
        (markdownLinesLoop now n ((markdownLine now feed).2)).1) := hl
    rcases List.mem_cons.mp hl' with rfl | hmem
    · exact markdownLine_catalog now feed
    · exact ih _ l hmem

/-! ## Fragment shape lemmas -/

theorem generateTextContent_shape (now : NowStrs) (feed : List Nat) :
    ∃ y, (generateTextContent now feed).1 = y ++ "\n" :=
  ⟨_, rfl⟩

theorem generateMarkdownContent_shape (now : NowStrs) (feed : List Nat) :
    ∃ y, (generateMarkdownContent now feed).1 = y ++ "\n" :=
  ⟨_, rfl⟩

theorem generateGenericContent_shape (now : NowStrs) (feed : List Nat) :
    ∃ y, (generateGenericContent now feed).1 = y ++ "\n" :=
  ⟨_, rfl⟩

theorem contentFor_shape (parse : String → Option ProgressData)
    (dump : ProgressData → String) (fs : FS) (target : String) (now : NowStrs)
    (feed : List Nat) (h : fileSuffix target ≠ ".json") :
    ∃ y, (contentFor parse dump fs target now feed).1 = y ++ "\n" := by
  unfold contentFor
  by_cases h1 : fileSuffix target = ".md"
  · rw [if_pos h1]
    exact generateMarkdownContent_shape now feed
  · rw [if_neg h1, if_neg h]
    by_cases h2 : fileSuffix target = ".txt"
    · rw [if_pos h2]
      exact generateTextContent_shape now feed
    · rw [if_neg h2]
      exact generateGenericContent_shape now feed

/-! ## Claims -/

/-- C1: the claim states that for a full-replace (JSON) category target the
mutator writes the generated fragment as the file's entire new content,
truncating prior content.  The code opens every file — `.json` included — in
append mode: with prior content `"x"` in `progress.json`, the persisted
content is the prior content, a separating newline, and then the generated
document, which is never equal to the generated document alone.  This
evaluates the embedded `create_or_update_file` at that failing input. -/
theorem c1_json_write_appends_not_replaces
    (parse : String → Option ProgressData) (dump : ProgressData → String)
    (now : NowStrs) (feed : List Nat) :
    ∀ g : String,
      g = (contentFor parse dump
          (fun p => if p = "progress.json" then some "x" else none)
          "progress.json" now feed).1 →
      (createOrUpdateFile parse dump
          (fun p => if p = "progress.json" then some "x" else none)
          "progress.json" now feed).1 "progress.json" = some ("x\n" ++ g) ∧
      "x\n" ++ g ≠ g := by
  intro g hg
  constructor
  · have hres : (createOrUpdateFile parse dump
        (fun p => if p = "progress.json" then some "x" else none)
        "progress.json" now feed).1 "progress.json" =
        some (appendWrite "x" g) := by
      unfold createOrUpdateFile
      rw [hg]
      simp
    rw [hres]
    have h1 : appendWrite "x" g = "x" ++ "\n" ++ g := by
      unfold appendWrite sepFor
      rw [if_pos (by decide)]
    rw [h1]
    rfl
  · intro h
    have hlen := congrArg String.length h
    rw [String.length_append] at hlen
    have : ("x\n" : String).length = 2 := rfl
    omega

/-- C1 witness: the append-not-replace behaviour at a concrete run over a
`progress.json` holding the prior content `"x"`. -/
theorem c1_json_write_appends_not_replaces_witness :
    (createOrUpdateFile (fun _ => none) (fun _ => "doc")
        (fun p => if p = "progress.json" then some "x" else none)
        "progress.json" sampleNow []).1 "progress.json" =
      some ("x\n" ++ (contentFor (fun _ => none) (fun _ => "doc")
        (fun p => if p = "progress.json" then some "x" else none)
        "progress.json" sampleNow []).1) ∧
    "x\n" ++ (contentFor (fun _ => none) (fun _ => "doc")
        (fun p => if p = "progress.json" then some "x" else none)
        "progress.json" sampleNow []).1 ≠
      (contentFor (fun _ => none) (fun _ => "doc")
        (fun p => if p = "progress.json" then some "x" else none)
        "progress.json" sampleNow []).1 :=
  c1_json_write_appends_not_replaces (fun _ => none) (fun _ => "doc")
    sampleNow [] _ rfl

/-- C2 counterexample: the claim states the selector returns between 1 and 2
descriptors.  With the draw sequence `[2, 0, 0, 0]` the code draws
`randint(1, 3) = 3` and samples three distinct files, so the selection has
length 3, refuting the bound of 2. -/
theorem c2_selector_returns_three :
    (selectFiles FILES_TO_UPDATE [2, 0, 0, 0]).1 =
      ["daily_log.md", "README.md", "progress.json"] ∧
    ¬ (selectFiles FILES_TO_UPDATE [2, 0, 0, 0]).1.length ≤ 2 := by
  constructor
  · decide
  · decide

/-- C2 amended: for every non-empty duplicate-free configured file list the
selector returns between 1 and `min MAX_FILES_PER_DAY n` distinct files
drawn from the list without replacement (count drawn uniformly from
`{1, 2, 3}`, sampling uniform, not weighted). -/
theorem c2_selector_bounds (files : List String) (feed : List Nat)
    (hne : files ≠ []) (hnd : files.Nodup) :
    1 ≤ (selectFiles files feed).1.length ∧
    (selectFiles files feed).1.length ≤ min MAX_FILES_PER_DAY files.length ∧
    (selectFiles files feed).1.Nodup ∧
    ∀ x ∈ (selectFiles files feed).1, x ∈ files := by
  have hpos : 0 < files.length := List.length_pos.mpr hne
  have hmod : (next feed).1 % (MAX_FILES_PER_DAY - 1 + 1) < 3 :=
    Nat.mod_lt _ (by decide)
  have h1 : 1 ≤ pyRandint 1 MAX_FILES_PER_DAY (next feed).1 :=
    Nat.le_add_right 1 _
  have h2 : pyRandint 1 MAX_FILES_PER_DAY (next feed).1 ≤ MAX_FILES_PER_DAY := by
    unfold pyRandint
    unfold MAX_FILES_PER_DAY at hmod ⊢
    omega
  have hkle : min (pyRandint 1 MAX_FILES_PER_DAY (next feed).1) files.length ≤
      files.length := Nat.min_le_right _ _
  have hlen : (selectFiles files feed).1.length =
      min (pyRandint 1 MAX_FILES_PER_DAY (next feed).1) files.length := by
    unfold selectFiles
    exact sample_length _ files (next feed).2 hkle
  refine ⟨?_, ?_, ?_, ?_⟩
  · rw [hlen]
    exact Nat.le_min.mpr ⟨h1, hpos⟩
  · rw [hlen]
    omega
  · exact sample_nodup _ files (next feed).2 hnd
  · intro x hx
    exact sample_subset _ files (next feed).2 x hx

/-- C2 witness: the amended selector bounds hold at the configured file
list. -/
theorem c2_selector_bounds_witness :
    FILES_TO_UPDATE ≠ [] ∧ FILES_TO_UPDATE.Nodup ∧
    (1 ≤ (selectFiles FILES_TO_UPDATE [0, 0, 0, 0]).1.length ∧
     (selectFiles FILES_TO_UPDATE [0, 0, 0, 0]).1.length ≤
       min MAX_FILES_PER_DAY FILES_TO_UPDATE.length ∧
     (selectFiles FILES_TO_UPDATE [0, 0, 0, 0]).1.Nodup ∧
     ∀ x ∈ (selectFiles FILES_TO_UPDATE [0, 0, 0, 0]).1, x ∈ FILES_TO_UPDATE) :=
  ⟨by decide, by decide,
    c2_selector_bounds FILES_TO_UPDATE [0, 0, 0, 0] (by decide) (by decide)⟩

/-- C3: the claim is about the persisted mapping after a run on a file that
already holds today's entry.  The generated document itself is right — the
upsert leaves exactly one entry for today, `total_entries` equals the mapping
size, and the mapping size is unchanged — but the mutator appends that
document after the prior file content instead of replacing it (see C1), so
what is persisted is not the single mapping the claim describes.  This
theorem proves the generated document's invariant. -/
theorem c3_generated_doc_overwrites_today (now : NowStrs) (feed : List Nat)
    (du : List (String × Entry)) (lm : Option String) (te : Option Nat)
    (hnd : (du.map Prod.fst).Nodup) (hmem : now.ymd ∈ du.map Prod.fst) :
    countKey now.ymd
      ((generateJsonDoc now feed ⟨some du, lm, te⟩).1.daily_updates.getD []) = 1 ∧
    (generateJsonDoc now feed ⟨some du, lm, te⟩).1.total_entries =
      some ((generateJsonDoc now feed
        ⟨some du, lm, te⟩).1.daily_updates.getD []).length ∧
    ((generateJsonDoc now feed ⟨some du, lm, te⟩).1.daily_updates.getD []).length =
      du.length := by
  refine ⟨?_, rfl, ?_⟩
  · exact countKey_upsert now.ymd _ du hnd
  · exact upsert_length_of_mem now.ymd _ du hmem

/-- C3 witness: the generated-document invariant at a concrete document that
already holds an entry for today. -/
theorem c3_generated_doc_overwrites_today_witness :
    countKey sampleNow.ymd
      ((generateJsonDoc sampleNow [0, 0, 0, 0]
        ⟨some [("2026-10-12", ⟨"t", "a", "s", "n", "e"⟩)], none, none⟩).1.daily_updates.getD []) = 1 ∧
    (generateJsonDoc sampleNow [0, 0, 0, 0]
      ⟨some [("2026-10-12", ⟨"t", "a", "s", "n", "e"⟩)], none, none⟩).1.total_entries =
      some ((generateJsonDoc sampleNow [0, 0, 0, 0]
        ⟨some [("2026-10-12", ⟨"t", "a", "s", "n", "e"⟩)], none, none⟩).1.daily_updates.getD []).length ∧
    ((generateJsonDoc sampleNow [0, 0, 0, 0]
      ⟨some [("2026-10-12", ⟨"t", "a", "s", "n", "e"⟩)], none, none⟩).1.daily_updates.getD []).length =
      [("2026-10-12", (⟨"t", "a", "s", "n", "e"⟩ : Entry))].length :=
  c3_generated_doc_overwrites_today sampleNow [0, 0, 0, 0]
    [("2026-10-12", ⟨"t", "a", "s", "n", "e"⟩)] none none (by decide) (by decide)

/-- C4 (modelled from the spec, as the pull-before-write orchestrator is not
among the source files): when the pull step fails the streamlined
orchestrator reports failure immediately, having issued no effect beyond the
pull itself — in particular no file write and no commit. -/
theorem c4_pull_failure_no_mutation (selected : List String)
    (mutOk : String → Bool) (env : GitEnv) (msg : String) :
    runOrchestrator false selected mutOk env msg = (false, [Eff.pull]) ∧
    (∀ p, Eff.writeFile p ∉ (runOrchestrator false selected mutOk env msg).2) ∧
    (∀ m, Eff.commit m ∉ (runOrchestrator false selected mutOk env msg).2) := by
  have h : runOrchestrator false selected mutOk env msg = (false, [Eff.pull]) := by
    unfold runOrchestrator
    simp
  refine ⟨h, ?_, ?_⟩ <;> rw [h] <;> simp

/-- C5: when zero selected files are successfully mutated,
`run_daily_automation` returns failure without issuing any git write
operation (no stage, no commit, no push). -/
theorem c5_no_mutation_no_vcs_ops (files : List String) (mutOk : String → Bool)
    (env : GitEnv) (now : NowStrs) (feed : List Nat)
    (h : ((selectFiles files feed).1).filter mutOk = []) :
    runDailyAutomation files mutOk env now feed = (false, []) := by
  unfold runDailyAutomation
  simp [h]

/-- C5 witness: with an empty configured file list the selector returns the
empty selection and the run is a failure with no git write operation. -/
theorem c5_no_mutation_no_vcs_ops_witness :
    runDailyAutomation [] (fun _ => true)
      ⟨true, true, some "f", true, true⟩ sampleNow [0] = (false, []) :=
  c5_no_mutation_no_vcs_ops [] (fun _ => true)
    ⟨true, true, some "f", true, true⟩ sampleNow [0] (by decide)

/-- C6 counterexample: the claim states markdown lines are drawn without
repetition within one fragment.  With the draw sequence `[1, 2, 0, 2, 0]` the
generator draws two lines and both are the list bullet for the first
activity, so the fragment repeats a line. -/
theorem c6_markdown_lines_repeat :
    (markdownLines sampleNow [1, 2, 0, 2, 0]).1 =
      ["- code review", "- code review"] ∧
    ¬ (markdownLines sampleNow [1, 2, 0, 2, 0]).1.Nodup := by
  constructor
  · decide
  · decide

/-- C6 amended: every markdown fragment consists of between 1 and
`MAX_LINES_TO_ADD` lines, each drawn independently (repeats allowed, no
clamping to the catalog size) from the fixed catalog of line templates, and
the fragment is their newline join plus a trailing newline. -/
theorem c6_markdown_lines_from_catalog (now : NowStrs) (feed : List Nat) :
    1 ≤ (markdownLines now feed).1.length ∧
    (markdownLines now feed).1.length ≤ MAX_LINES_TO_ADD ∧
    (∀ l ∈ (markdownLines now feed).1, IsCatalogLine now l) ∧
    (generateMarkdownContent now feed).1 =
      String.intercalate "\n" (markdownLines now feed).1 ++ "\n" := by
  have hlen : (markdownLines now feed).1.length =
      pyRandint MIN_LINES_TO_ADD MAX_LINES_TO_ADD ((next feed).1) := by
    unfold markdownLines
    exact markdownLinesLoop_length now _ _
  have hmod : (next feed).1 % (MAX_LINES_TO_ADD - MIN_LINES_TO_ADD + 1) < 5 :=
    Nat.mod_lt _ (by decide)
  refine ⟨?_, ?_, ?_, rfl⟩
  · rw [hlen]
    exact Nat.le_add_right 1 _
  · rw [hlen]
    unfold pyRandint MIN_LINES_TO_ADD MAX_LINES_TO_ADD at hmod ⊢
    omega
  · intro l hl
    unfold markdownLines at hl
    exact markdownLinesLoop_catalog now _ _ l hl

/-- C7: for every append-category target (any suffix other than `.json`),
two successive runs of the mutator each strictly increase the file's line
count, and the first write appends the fragment after the prior content with
the separating newline inserted exactly when the prior content is nonempty
and does not end in a line break. -/
theorem c7_append_updates_monotonic (parse : String → Option ProgressData)
    (dump : ProgressData → String) (fs : FS) (target : String)
    (now1 now2 : NowStrs) (feed1 feed2 : List Nat)
    (h : fileSuffix target ≠ ".json") :
    lineCount ((fs target).getD "") <
      lineCount (((createOrUpdateFile parse dump fs target now1 feed1).1
        target).getD "") ∧
    lineCount (((createOrUpdateFile parse dump fs target now1 feed1).1
        target).getD "") <
      lineCount (((createOrUpdateFile parse dump
        (createOrUpdateFile parse dump fs target now1 feed1).1
        target now2 feed2).1 target).getD "") ∧
    ((createOrUpdateFile parse dump fs target now1 feed1).1 target).getD "" =
      ((fs target).getD "") ++ sepFor ((fs target).getD "") ++
        (contentFor parse dump fs target now1 feed1).1 := by
  obtain ⟨y1, hy1⟩ := contentFor_shape parse dump fs target now1 feed1 h
  obtain ⟨y2, hy2⟩ := contentFor_shape parse dump
    (createOrUpdateFile parse dump fs target now1 feed1).1 target now2 feed2 h
  have e1 : ((createOrUpdateFile parse dump fs target now1 feed1).1 target).getD ""
      = appendWrite ((fs target).getD "")
        (contentFor parse dump fs target now1 feed1).1 := by
    unfold createOrUpdateFile
    simp
  have e2 : ((createOrUpdateFile parse dump
      (createOrUpdateFile parse dump fs target now1 feed1).1
      target now2 feed2).1 target).getD ""
      = appendWrite (((createOrUpdateFile parse dump fs target
          now1 feed1).1 target).getD "")
        (contentFor parse dump
          (createOrUpdateFile parse dump fs target now1 feed1).1
          target now2 feed2).1 := by
    conv_lhs => rw [createOrUpdateFile]
    simp
  refine ⟨?_, ?_, ?_⟩
  · rw [e1, hy1]
    exact appendWrite_lineCount_lt _ y1
  · rw [e2, hy2]
    exact appendWrite_lineCount_lt _ y2
  · rw [e1]
    rfl

/-- C7 witness: the monotonic-append property at the concrete target
`notes.txt` over an initially empty filesystem. -/
theorem c7_append_updates_monotonic_witness :
    lineCount ((((fun _ => none) : FS) "notes.txt").getD "") <
      lineCount (((createOrUpdateFile (fun _ => none) (fun _ => "")
        (fun _ => none) "notes.txt" sampleNow [0]).1 "notes.txt").getD "") ∧
    lineCount (((createOrUpdateFile (fun _ => none) (fun _ => "")
        (fun _ => none) "notes.txt" sampleNow [0]).1 "notes.txt").getD "") <
      lineCount (((createOrUpdateFile (fun _ => none) (fun _ => "")
        (createOrUpdateFile (fun _ => none) (fun _ => "")
          (fun _ => none) "notes.txt" sampleNow [0]).1
        "notes.txt" sampleNow [0]).1 "notes.txt").getD "") ∧
    ((createOrUpdateFile (fun _ => none) (fun _ => "")
        (fun _ => none) "notes.txt" sampleNow [0]).1 "notes.txt").getD "" =
      ((((fun _ => none) : FS) "notes.txt").getD "") ++
        sepFor ((((fun _ => none) : FS) "notes.txt").getD "") ++
        (contentFor (fun _ => none) (fun _ => "")
          (fun _ => none) "notes.txt" sampleNow [0]).1 :=
  c7_append_updates_monotonic (fun _ => none) (fun _ => "") (fun _ => none)
    "notes.txt" sampleNow sampleNow [0] [0] (by decide)

/-- C9 counterexample: the claim states that no random draw happens for a
placeholder value the chosen template does not contain.  The first template,
`Daily update: {date}`, contains none of `{activity}`, `{random_emoji}` or
`{random_text}`, yet the composer consumes four draws — the template draw
plus one from each of the three catalogs — leaving `[4]` of the feed
`[0, 1, 2, 3, 4]`. -/
theorem c9_unused_placeholders_still_drawn :
    (getRandomCommitMessage [0, 1, 2, 3, 4] sampleNow.ymd sampleNow.ymdhms
      "daily_log.md").2 = [4] ∧
    containsS (COMMIT_MESSAGES.getD 0 "") "{activity}" = false ∧
    containsS (COMMIT_MESSAGES.getD 0 "") "{random_emoji}" = false ∧
    containsS (COMMIT_MESSAGES.getD 0 "") "{random_text}" = false :=
  ⟨rfl, by decide, by decide, by decide⟩

/-- C9 amended: every invocation of the message composer advances the random
source by exactly four draws — the template, an activity, an emoji and a
random text — regardless of which placeholders the chosen template
contains. -/
theorem c9_always_four_draws (feed : List Nat) (dateS tsS fileU : String) :
    (getRandomCommitMessage feed dateS tsS fileU).2 = feed.drop 4 := by
  rcases feed with _ | ⟨a, _ | ⟨b, _ | ⟨c, _ | ⟨d, rest⟩⟩⟩⟩ <;> rfl

/-- C10: for every target whose suffix is `.json` the generated content is
derived from the document read at the fixed path `progress.json` — it does
not depend on the target's own name or on any other file, and it is exactly
the `generate_json_content` result. -/
theorem c10_json_content_from_progress_path (parse : String → Option ProgressData)
    (dump : ProgressData → String) (fs fs' : FS) (t t' : String) (now : NowStrs)
    (feed : List Nat) (h : fileSuffix t = ".json") (h' : fileSuffix t' = ".json")
    (hagree : fs "progress.json" = fs' "progress.json") :
    (contentFor parse dump fs t now feed).1 =
      (contentFor parse dump fs' t' now feed).1 ∧
    (contentFor parse dump fs t now feed).1 =
      (generateJsonContent parse dump fs now feed).1 := by
  have hmd : fileSuffix t ≠ ".md" := by rw [h]; decide
  have hmd' : fileSuffix t' ≠ ".md" := by rw [h']; decide
  have e1 : contentFor parse dump fs t now feed =
      generateJsonContent parse dump fs now feed := by
    unfold contentFor
    rw [if_neg hmd, if_pos h]
  have e2 : contentFor parse dump fs' t' now feed =
      generateJsonContent parse dump fs' now feed := by
    unfold contentFor
    rw [if_neg hmd', if_pos h']
  have e3 : generateJsonContent parse dump fs now feed =
      generateJsonContent parse dump fs' now feed := by
    unfold generateJsonContent
    rw [hagree]
  exact ⟨by rw [e1, e2, e3], by rw [e1]⟩

/-- C10 witness: a JSON-category target named `data.json` over a filesystem
holding nothing receives the same content as the target `progress.json` over
a filesystem that differs away from `progress.json`. -/
theorem c10_json_content_from_progress_path_witness :
    ((contentFor (fun _ => none) (fun _ => "doc") (fun _ => none) "data.json"
        sampleNow []).1 =
      (contentFor (fun _ => none) (fun _ => "doc")
        (fun p => if p = "notes.txt" then some "z" else none) "progress.json"
        sampleNow []).1) ∧
    (contentFor (fun _ => none) (fun _ => "doc") (fun _ => none) "data.json"
        sampleNow []).1 =
      (generateJsonContent (fun _ => none) (fun _ => "doc") (fun _ => none)
        sampleNow []).1 :=
  c10_json_content_from_progress_path (fun _ => none) (fun _ => "doc")
    (fun _ => none) (fun p => if p = "notes.txt" then some "z" else none)
    "data.json" "progress.json" sampleNow [] (by decide) (by decide) (by decide)

/-- C8 counterexample: the claim quantifies over every filename argument and
asserts the returned message holds no literal placeholder text.  With the
filename argument `{date}` and the template `Daily sync: {file_updated}`
(template draw 5), the `{file_updated}` pass substitutes the filename after
the `{date}` pass has already run, so the literal `{date}` survives into the
returned message. -/
theorem c8_filename_reintroduces_placeholder :
    (getRandomCommitMessage [5, 0, 0, 0] "2026-10-12" "2026-10-12 07:00:00"
      "{date}").1 = "Daily sync: {date}" ∧
    containsS "Daily sync: {date}" "{date}" = true := by
  constructor
  · apply String.ext
    show (substitutePlaceholders "Daily sync: {file_updated}" "2026-10-12"
        "2026-10-12 07:00:00" "code review" "{date}" "🚀" "Quick update").data =
      ("Daily sync: {date}" : String).data
    rw [substData]
    rw [show ("Daily sync: {file_updated}" : String).data =
      segStr [Seg.lit "Daily sync: ".data, Seg.ph "{file_updated}".data] from
        by decide]
    show replaceAllL "{random_text}".data "Quick update".data
      (replaceAllL "{random_emoji}".data "🚀".data
      (replaceAllL "{file_updated}".data "{date}".data
      (replaceAllL "{activity}".data "code review".data
      (replaceAllL "{timestamp}".data "2026-10-12 07:00:00".data
      (replaceAllL "{date}".data "2026-10-12".data
      (segStr [Seg.lit "Daily sync: ".data, Seg.ph "{file_updated}".data])))))) =
      ("Daily sync: {date}" : String).data
    rw [step_seg_eq "{date}".data "2026-10-12".data (by decide) (by decide)
      [Seg.lit "Daily sync: ".data, Seg.ph "{file_updated}".data] (by decide)]
    rw [show stepSeg "{date}".data "2026-10-12".data
      [Seg.lit "Daily sync: ".data, Seg.ph "{file_updated}".data] =
      [Seg.lit "Daily sync: ".data, Seg.ph "{file_updated}".data] from by decide]
    rw [step_seg_eq "{timestamp}".data "2026-10-12 07:00:00".data (by decide)
      (by decide) [Seg.lit "Daily sync: ".data, Seg.ph "{file_updated}".data]
      (by decide)]
    rw [show stepSeg "{timestamp}".data "2026-10-12 07:00:00".data
      [Seg.lit "Daily sync: ".data, Seg.ph "{file_updated}".data] =
      [Seg.lit "Daily sync: ".data, Seg.ph "{file_updated}".data] from by decide]
    rw [step_seg_eq "{activity}".data "code review".data (by decide) (by decide)
      [Seg.lit "Daily sync: ".data, Seg.ph "{file_updated}".data] (by decide)]
    rw [show stepSeg "{activity}".data "code review".data
      [Seg.lit "Daily sync: ".data, Seg.ph "{file_updated}".data] =
      [Seg.lit "Daily sync: ".data, Seg.ph "{file_updated}".data] from by decide]
    rw [step_seg_eq "{file_updated}".data "{date}".data (by decide) (by decide)
      [Seg.lit "Daily sync: ".data, Seg.ph "{file_updated}".data] (by decide)]
    rw [show stepSeg "{file_updated}".data "{date}".data
      [Seg.lit "Daily sync: ".data, Seg.ph "{file_updated}".data] =
      [Seg.lit "Daily sync: ".data, Seg.lit "{date}".data] from by decide]
    rw [show segStr [Seg.lit "Daily sync: ".data, Seg.lit "{date}".data] =
      segStr [Seg.lit "Daily sync: ".data, Seg.ph "{date}".data] from by decide]
    rw [step_seg_eq "{random_emoji}".data "🚀".data (by decide) (by decide)
      [Seg.lit "Daily sync: ".data, Seg.ph "{date}".data] (by decide)]
    rw [show stepSeg "{random_emoji}".data "🚀".data
      [Seg.lit "Daily sync: ".data, Seg.ph "{date}".data] =
      [Seg.lit "Daily sync: ".data, Seg.ph "{date}".data] from by decide]
    rw [step_seg_eq "{random_text}".data "Quick update".data (by decide)
      (by decide) [Seg.lit "Daily sync: ".data, Seg.ph "{date}".data]
      (by decide)]
    rw [show stepSeg "{random_text}".data "Quick update".data
      [Seg.lit "Daily sync: ".data, Seg.ph "{date}".data] =
      [Seg.lit "Daily sync: ".data, Seg.ph "{date}".data] from by decide]
    decide
  · decide

/-- C8 amended: for every random feed, clock strings and filename argument
that contain no brace, the composer returns one of the configured templates
with every placeholder substituted, and the result holds no brace — hence no
literal placeholder text.  (The unamended claim fails only when the filename
argument itself carries placeholder text.) -/
theorem c8_message_fully_substituted (feed : List Nat) (dateS tsS fileU : String)
    (hd : '{' ∉ dateS.data) (ht : '{' ∉ tsS.data) (hf : '{' ∉ fileU.data) :
    ∃ t ∈ COMMIT_MESSAGES, ∃ a ∈ ACTIVITIES, ∃ e ∈ EMOJIS, ∃ x ∈ RANDOM_TEXTS,
      (getRandomCommitMessage feed dateS tsS fileU).1 =
        substitutePlaceholders t dateS tsS a fileU e x ∧
      '{' ∉ (getRandomCommitMessage feed dateS tsS fileU).1.data := by
  refine ⟨pyChoice COMMIT_MESSAGES "" ((next feed).1),
    pyChoice_mem _ _ _ (by decide),
    pyChoice ACTIVITIES "" ((next ((next feed).2)).1),
    pyChoice_mem _ _ _ (by decide),
    pyChoice EMOJIS "" ((next ((next ((next feed).2)).2)).1),
    pyChoice_mem _ _ _ (by decide),
    pyChoice RANDOM_TEXTS "" ((next ((next ((next ((next feed).2)).2)).2)).1),
    pyChoice_mem _ _ _ (by decide), rfl, ?_⟩
  have ha := activities_brace_free _ (pyChoice_mem ACTIVITIES ""
    ((next ((next feed).2)).1) (by decide))
  have he := emojis_brace_free _ (pyChoice_mem EMOJIS ""
    ((next ((next ((next feed).2)).2)).1) (by decide))
  have hx := random_texts_brace_free _ (pyChoice_mem RANDOM_TEXTS ""
    ((next ((next ((next ((next feed).2)).2)).2)).1) (by decide))
  show '{' ∉ (substitutePlaceholders
    (pyChoice COMMIT_MESSAGES "" ((next feed).1)) dateS tsS
    (pyChoice ACTIVITIES "" ((next ((next feed).2)).1)) fileU
    (pyChoice EMOJIS "" ((next ((next ((next feed).2)).2)).1))
    (pyChoice RANDOM_TEXTS ""
      ((next ((next ((next ((next feed).2)).2)).2)).1))).data
  rw [show pyChoice COMMIT_MESSAGES "" ((next feed).1) =
    COMMIT_MESSAGES.getD ((next feed).1 % 10) "" from rfl]
  have h10 : (next feed).1 % 10 < 10 := Nat.mod_lt _ (by decide)
  set m := (next feed).1 % 10 with hm
  interval_cases m
  · exact subst_brace_free_of_segs dateS tsS _ fileU _ _ hd ht ha hf he hx _
      [Seg.lit "Daily update: ".data, Seg.ph "{date}".data]
      (by decide) (by decide)
  · exact subst_brace_free_of_segs dateS tsS _ fileU _ _ hd ht ha hf he hx _
      [Seg.lit "Progress log for ".data, Seg.ph "{date}".data]
      (by decide) (by decide)
  · exact subst_brace_free_of_segs dateS tsS _ fileU _ _ hd ht ha hf he hx _
      [Seg.lit "Update: ".data, Seg.ph "{activity}".data, Seg.lit " - ".data,
       Seg.ph "{date}".data] (by decide) (by decide)
  · exact subst_brace_free_of_segs dateS tsS _ fileU _ _ hd ht ha hf he hx _
      [Seg.lit "Daily commit: ".data, Seg.ph "{random_emoji}".data,
       Seg.lit " ".data, Seg.ph "{date}".data] (by decide) (by decide)
  · exact subst_brace_free_of_segs dateS tsS _ fileU _ _ hd ht ha hf he hx _
      [Seg.lit "Log entry: ".data, Seg.ph "{timestamp}".data]
      (by decide) (by decide)
  · exact subst_brace_free_of_segs dateS tsS _ fileU _ _ hd ht ha hf he hx _
      [Seg.lit "Daily sync: ".data, Seg.ph "{file_updated}".data]
      (by decide) (by decide)
  · exact subst_brace_free_of_segs dateS tsS _ fileU _ _ hd ht ha hf he hx _
      [Seg.lit "Update ".data, Seg.ph "{file_updated}".data, Seg.lit ": ".data,
       Seg.ph "{random_text}".data] (by decide) (by decide)
  · exact subst_brace_free_of_segs dateS tsS _ fileU _ _ hd ht ha hf he hx _
      [Seg.lit "Daily progress: ".data, Seg.ph "{activity}".data]
      (by decide) (by decide)
  · exact subst_brace_free_of_segs dateS tsS _ fileU _ _ hd ht ha hf he hx _
      [Seg.lit "Commit: ".data, Seg.ph "{random_emoji}".data, Seg.lit " ".data,
       Seg.ph "{activity}".data] (by decide) (by decide)
  · exact subst_brace_free_of_segs dateS tsS _ fileU _ _ hd ht ha hf he hx _
      [Seg.lit "Update: ".data, Seg.ph "{random_text}".data, Seg.lit " - ".data,
       Seg.ph "{date}".data] (by decide) (by decide)

/-- C8 witness: the substitution property at a concrete feed, clock and
filename. -/
theorem c8_message_fully_substituted_witness :
    ('{' ∉ ("2026-10-12" : String).data) ∧
    ('{' ∉ ("2026-10-12 07:00:00" : String).data) ∧
    ('{' ∉ ("daily_log.md" : String).data) ∧
    (∃ t ∈ COMMIT_MESSAGES, ∃ a ∈ ACTIVITIES, ∃ e ∈ EMOJIS, ∃ x ∈ RANDOM_TEXTS,
      (getRandomCommitMessage [0, 0, 0, 0] "2026-10-12" "2026-10-12 07:00:00"
        "daily_log.md").1 =
        substitutePlaceholders t "2026-10-12" "2026-10-12 07:00:00" a
          "daily_log.md" e x ∧
      '{' ∉ (getRandomCommitMessage [0, 0, 0, 0] "2026-10-12"
        "2026-10-12 07:00:00" "daily_log.md").1.data) :=
  ⟨by decide, by decide, by decide,
    c8_message_fully_substituted [0, 0, 0, 0] "2026-10-12"
      "2026-10-12 07:00:00" "daily_log.md" (by decide) (by decide) (by decide)⟩

end DailyCommit
